import Mathlib

/-!
Verification of the MPC56xx BAM CAN loader protocol driver.

The development shallowly embeds the loader's core
(`mpc56xx_bam_can_loader.py`): the frame-exchange primitive
`send_recv_frame`, the three phase operations `send_password`,
`send_loading_address` and `send_code`, and the post-file-load part of
`main`.  The CAN transport (python-can's `Bus`) is modelled as an
oracle (`BusModel`) saying whether `send` raises and what `recv`
yields; each embedded operation additionally returns the list of
transport events it performed (`busOpen`, `busSend`, `busRecv`,
`busClose`), which makes resource scoping and frame ordering provable.
Machine integers are `Nat`; Python `bytes`/`bytearray` values are
`List Nat`; a Python exception that aborts an operation (failed
`assert`, `OverflowError` of `int.to_bytes`) is `Option.none`.
-/

namespace BamLoader

/-- Password sent with CAN ID 0x011 (source constant `ID_SEND_PASSWORD`). -/
def ID_SEND_PASSWORD : Nat := 0x011

/-- Password echoed with CAN ID 0x001 (source constant `ID_SEND_PASSWORD_ECHO`). -/
def ID_SEND_PASSWORD_ECHO : Nat := 0x001

/-- VLE and address/size sent with CAN ID 0x012 (source constant `ID_SEND_ADDRESS`). -/
def ID_SEND_ADDRESS : Nat := 0x012

/-- VLE and address/size echoed with CAN ID 0x002 (source constant `ID_SEND_ADDRESS_ECHO`). -/
def ID_SEND_ADDRESS_ECHO : Nat := 0x002

/-- Data sent with CAN ID 0x013 (source constant `ID_SEND_DATA`). -/
def ID_SEND_DATA : Nat := 0x013

/-- Data echoed with CAN ID 0x003 (source constant `ID_SEND_DATA_ECHO`). -/
def ID_SEND_DATA_ECHO : Nat := 0x003

/-- Fixed loading address bytes (source constant `LOADING_ADDRESS`). -/
def LOADING_ADDRESS : List Nat := [0x40, 0x00, 0x01, 0x00]

/-- Default MPC5646 password (source constant `DEFAULT_PASSWORD`). -/
def DEFAULT_PASSWORD : Nat := 0xFEEDFACECAFEBEEF

/-- A CAN frame as the loader uses it: `can.Message` with a standard
arbitration ID and a payload of bytes. -/
structure Message where
  arbitration_id : Nat
  data : List Nat
deriving DecidableEq, Repr

/-- Outcome of one `bus.recv(1)` call: the call may raise `can.CanError`,
return `None` after the 1-second window, or return a frame. -/
inductive RecvOutcome where
  | canError : RecvOutcome
  | noFrame : RecvOutcome
  | frame : Message → RecvOutcome

/-- Behaviour of one opened bus connection: whether `bus.send` raises
`can.CanError`, and what `bus.recv(1)` yields as a function of the frame
that was sent. -/
structure BusModel where
  sendFails : Bool
  response : Message → RecvOutcome

/-- Observable transport events: the bus connection being opened by the
`with can.interface.Bus(...)` statement, a `bus.send` attempt, a
`bus.recv` attempt, and the connection being shut down when the `with`
block is exited (on any path). -/
inductive Event where
  | busOpen : Event
  | busSend : Message → Event
  | busRecv : Event
  | busClose : Event
deriving DecidableEq, Repr

/-- Payloads of the frames whose send was attempted, in order. -/
def sentPayloads (tr : List Event) : List (List Nat) :=
  tr.filterMap fun e =>
    match e with
    | Event.busSend f => some f.data
    | _ => none

/-- The subsequence of connection open/close events of a trace. -/
def opensCloses (tr : List Event) : List Event :=
  tr.filter fun e =>
    match e with
    | Event.busOpen => true
    | Event.busClose => true
    | _ => false

/-- Embedding of `CANLoader.send_recv_frame` (source lines 68-101).
Opens a bus, sends `frame` (returning `False` if `bus.send` raises),
then calls `bus.recv(1)`; if a response arrived, the result is
`resp.arbitration_id == response_id and resp.data == frame.data`;
a `recv` error or no response within the window yields `False`.
The `with` statement closes the bus on every exit path, which the
returned trace records. -/
def send_recv_frame (bus : BusModel) (frame : Message) (response_id : Nat) :
    Bool × List Event :=
  if bus.sendFails then
    (false, [Event.busOpen, Event.busSend frame, Event.busClose])
  else
    match bus.response frame with
    | RecvOutcome.canError =>
        (false, [Event.busOpen, Event.busSend frame, Event.busRecv, Event.busClose])
    | RecvOutcome.noFrame =>
        (false, [Event.busOpen, Event.busSend frame, Event.busRecv, Event.busClose])
    | RecvOutcome.frame resp =>
        (resp.arbitration_id == response_id && resp.data == frame.data,
         [Event.busOpen, Event.busSend frame, Event.busRecv, Event.busClose])

/-- Big-endian byte list of `n`, `len` bytes, truncating above
`256 ^ len`; this is the value part of Python's `n.to_bytes(len, "big")`. -/
def toBytesBE : Nat → Nat → List Nat
  | 0, _ => []
  | len + 1, n => toBytesBE len (n / 256) ++ [n % 256]

/-- Python's `n.to_bytes(len, "big")`: the big-endian bytes when `n`
fits in `len` bytes, `none` (an `OverflowError`) otherwise. -/
def to_bytes (n len : Nat) : Option (List Nat) :=
  if n < 256 ^ len then some (toBytesBE len n) else none

/-- Big-endian decoding of a byte list, `int.from_bytes(bs, "big")`. -/
def fromBytesBE (bs : List Nat) : Nat :=
  bs.foldl (fun acc b => acc * 256 + b) 0

/-- Number of hexadecimal digits Python's `hex(n)` prints after the
`0x` prefix, i.e. `len(hex(n)) - 2` for a nonnegative `n`. -/
def pyHexLen (n : Nat) : Nat :=
  if _h : n < 16 then 1 else pyHexLen (n / 16) + 1
termination_by n
decreasing_by exact Nat.div_lt_self (by omega) (by omega)

/-- Embedding of `CANLoader.send_password` (source lines 103-115).
The function first asserts `len(hex(password)) - 2 == 16` (an
`AssertionError`, i.e. `none`, when that fails), then builds the frame
with payload `password.to_bytes(8, "big")` and arbitration ID 0x011 and
exchanges it against echo ID 0x001. -/
def send_password (bus : BusModel) (password : Nat) : Option (Bool × List Event) :=
  if pyHexLen password = 16 then
    match to_bytes password 8 with
    | some pwd =>
        some (send_recv_frame bus
          { arbitration_id := ID_SEND_PASSWORD, data := pwd } ID_SEND_PASSWORD_ECHO)
    | none => none
  else
    none

/-- Embedding of `CANLoader.send_loading_address` (source lines 117-130).
The code sets `code_length |= 0x80000000`, appends
`code_length.to_bytes(4, "big")` to `LOADING_ADDRESS` (the `to_bytes`
call raises `OverflowError`, i.e. `none`, when the or-ed value needs
more than 4 bytes) and exchanges the frame with arbitration ID 0x012
against echo ID 0x002.  There is no validation of `code_length` before
the bitwise or. -/
def send_loading_address (bus : BusModel) (code_length : Nat) :
    Option (Bool × List Event) :=
  let cl := code_length ||| 0x80000000
  match to_bytes cl 4 with
  | some sizeBytes =>
      some (send_recv_frame bus
        { arbitration_id := ID_SEND_ADDRESS, data := LOADING_ADDRESS ++ sizeBytes }
        ID_SEND_ADDRESS_ECHO)
  | none => none

/-- Loop body of `CANLoader.send_code` (source lines 138-147), from loop
index `i` of `range(0, code_length, 8)` onwards; `k` counts the
exchanges already performed and indexes the oracle giving each
exchange's bus behaviour.  Each iteration exchanges a frame with
arbitration ID 0x013 and payload `code_bytes[i : i + 8]` against echo
ID 0x003 and returns `False` as soon as an exchange fails. -/
def send_code_from (oracle : Nat → BusModel) (code_length : Nat)
    (code_bytes : List Nat) (i k : Nat) : Bool × List Event :=
  if _h : i < code_length then
    let msg : Message :=
      { arbitration_id := ID_SEND_DATA, data := (code_bytes.drop i).take 8 }
    let r := send_recv_frame (oracle k) msg ID_SEND_DATA_ECHO
    if r.1 then
      let rest := send_code_from oracle code_length code_bytes (i + 8) (k + 1)
      (rest.1, r.2 ++ rest.2)
    else
      (false, r.2)
  else
    (true, [])
termination_by code_length - i
decreasing_by omega

/-- Embedding of `CANLoader.send_code` (source lines 132-147): run the
chunk loop from `i = 0`. -/
def send_code (oracle : Nat → BusModel) (code_length : Nat)
    (code_bytes : List Nat) : Bool × List Event :=
  send_code_from oracle code_length code_bytes 0 0

/-- The successive payload slices `code_bytes[i : i + 8]` taken by the
`send_code` loop for the indices `i, i + 8, i + 16, ...` of
`range(i, code_length, 8)`. -/
def code_chunks (code_length : Nat) (code_bytes : List Nat) (i : Nat) :
    List (List Nat) :=
  if _h : i < code_length then
    (code_bytes.drop i).take 8 :: code_chunks code_length code_bytes (i + 8)
  else
    []
termination_by code_length - i
decreasing_by omega

/-- A bus on which `send` succeeds and the target echoes the payload of
every sent frame back under arbitration ID `echo_id`. -/
def echoBus (echo_id : Nat) : BusModel :=
  { sendFails := false
    response := fun f => RecvOutcome.frame { arbitration_id := echo_id, data := f.data } }

/-- A bus on which `send` succeeds but `recv` returns `None` after the
1-second window. -/
def silentBus : BusModel :=
  { sendFails := false, response := fun _ => RecvOutcome.noFrame }

/-- How the `main` run terminates in the embedding: each Python
exception that can abort it, the three phase-failure assertions, or
normal completion. -/
inductive MainOutcome where
  | emptyImageError : MainOutcome
  | passwordAssertFailed : MainOutcome
  | passwordPhaseFailed : MainOutcome
  | addressOverflow : MainOutcome
  | addressPhaseFailed : MainOutcome
  | codePhaseFailed : MainOutcome
  | success : MainOutcome
deriving DecidableEq, Repr

/-- Embedding of `main` (source lines 150-182) from the point where the
RAM image has been read into memory: substitute `DEFAULT_PASSWORD` when
no password argument was given, raise `ValueError` when the image
length is zero, then run `send_password`, `send_loading_address` and
`send_code` in order, each under `assert True == ...`.  The buses used
by the password and address exchanges and the oracle for the data
exchanges are parameters; the second component collects the transport
events of the whole run. -/
def main_after_load (pw_bus addr_bus : BusModel) (data_oracle : Nat → BusModel)
    (password_arg : Option Nat) (ram_image_bytes : List Nat) :
    MainOutcome × List Event :=
  let password :=
    match password_arg with
    | none => DEFAULT_PASSWORD
    | some p => p
  let ram_image_len := ram_image_bytes.length
  if ram_image_len = 0 then
    (MainOutcome.emptyImageError, [])
  else
    match send_password pw_bus password with
    | none => (MainOutcome.passwordAssertFailed, [])
    | some (ok1, t1) =>
      if ok1 then
        match send_loading_address addr_bus ram_image_len with
        | none => (MainOutcome.addressOverflow, t1)
        | some (ok2, t2) =>
          if ok2 then
            let r := send_code data_oracle ram_image_len ram_image_bytes
            if r.1 then
              (MainOutcome.success, t1 ++ t2 ++ r.2)
            else
              (MainOutcome.codePhaseFailed, t1 ++ t2 ++ r.2)
          else
            (MainOutcome.addressPhaseFailed, t1 ++ t2)
      else
        (MainOutcome.passwordPhaseFailed, t1)

/-! ### Byte encoding lemmas -/

theorem toBytesBE_length (len n : Nat) : (toBytesBE len n).length = len := by
  induction len generalizing n with
  | zero => rfl
  | succ len ih => simp [toBytesBE, ih]

theorem fromBytesBE_append_one (l : List Nat) (x : Nat) :
    fromBytesBE (l ++ [x]) = fromBytesBE l * 256 + x := by
  unfold fromBytesBE
  rw [List.foldl_append]
  rfl

theorem fromBytesBE_toBytesBE_mod (len n : Nat) :
    fromBytesBE (toBytesBE len n) = n % 256 ^ len := by
  induction len generalizing n with
  | zero => simp [toBytesBE, fromBytesBE, Nat.mod_one]
  | succ len ih =>
    rw [toBytesBE, fromBytesBE_append_one, ih]
    have h := @Nat.mod_mul 256 (256 ^ len) n
    have hp : (256 : Nat) ^ (len + 1) = 256 * 256 ^ len := by ring
    rw [hp, h]
    ring

theorem fromBytesBE_toBytesBE (len n : Nat) (h : n < 256 ^ len) :
    fromBytesBE (toBytesBE len n) = n := by
  rw [fromBytesBE_toBytesBE_mod, Nat.mod_eq_of_lt h]

/-! ### Lemmas about the hexadecimal digit count used by the password assert -/

theorem pyHexLen_pos (n : Nat) : 0 < pyHexLen n := by
  rw [pyHexLen.eq_def]
  split <;> omega

theorem pyHexLen_of_bounds (k n : Nat) (h1 : 16 ^ k ≤ n) (h2 : n < 16 ^ (k + 1)) :
    pyHexLen n = k + 1 := by
  induction k generalizing n with
  | zero =>
    rw [pyHexLen.eq_def, dif_pos (by simpa using h2)]
  | succ k ih =>
    have h16 : ¬ n < 16 := by
      have : (16 : Nat) ≤ 16 ^ (k + 1) := Nat.le_self_pow (by omega) 16
      omega
    rw [pyHexLen.eq_def, dif_neg h16]
    rw [ih (n / 16) ?lo ?hi]
    case lo =>
      rw [Nat.le_div_iff_mul_le (by omega), ← pow_succ]
      exact h1
    case hi =>
      rw [Nat.div_lt_iff_lt_mul (by omega), ← pow_succ]
      exact h2

theorem lt_pow_pyHexLen (n : Nat) : n < 16 ^ pyHexLen n := by
  induction n using Nat.strong_induction_on with
  | _ n ih =>
    rw [pyHexLen.eq_def]
    split
    · rename_i h
      simpa using h
    · rename_i h
      have hd : n / 16 < n := Nat.div_lt_self (by omega) (by omega)
      have hih := ih (n / 16) hd
      rw [pow_succ]
      generalize (16 : Nat) ^ pyHexLen (n / 16) = B at hih ⊢
      omega

theorem pow_pyHexLen_sub_one_le (n : Nat) (hn : 0 < n) : 16 ^ (pyHexLen n - 1) ≤ n := by
  induction n using Nat.strong_induction_on with
  | _ n ih =>
    rw [pyHexLen.eq_def]
    split
    · simpa using hn
    · rename_i h
      have hd : n / 16 < n := Nat.div_lt_self (by omega) (by omega)
      have hpos : 0 < n / 16 := Nat.div_pos (by omega) (by omega)
      have hih := ih (n / 16) hd hpos
      have hp1 : 0 < pyHexLen (n / 16) := pyHexLen_pos _
      have hstep : pyHexLen (n / 16) = pyHexLen (n / 16) - 1 + 1 := by omega
      have key : 16 ^ (pyHexLen (n / 16) - 1) * 16 ≤ n :=
        calc 16 ^ (pyHexLen (n / 16) - 1) * 16
            ≤ n / 16 * 16 := Nat.mul_le_mul_right _ hih
          _ ≤ n := Nat.div_mul_le_self n 16
      have heq : 16 ^ pyHexLen (n / 16) = 16 ^ (pyHexLen (n / 16) - 1) * 16 := by
        conv_lhs => rw [hstep]
        rw [pow_succ]
      simp only [Nat.add_sub_cancel]
      rw [heq]
      exact key

theorem pyHexLen_eq_16_iff (n : Nat) : pyHexLen n = 16 ↔ 2 ^ 60 ≤ n ∧ n < 2 ^ 64 := by
  constructor
  · intro h
    have h1 := lt_pow_pyHexLen n
    rw [h] at h1
    have hn : 0 < n := by
      rcases Nat.eq_zero_or_pos n with h0 | h0
      · subst h0
        rw [pyHexLen.eq_def, dif_pos (by omega)] at h
        omega
      · exact h0
    have h2 := pow_pyHexLen_sub_one_le n hn
    rw [h] at h2
    refine ⟨?_, ?_⟩
    · calc (2 : Nat) ^ 60 = 16 ^ (16 - 1) := by norm_num
        _ ≤ n := h2
    · calc n < 16 ^ 16 := h1
        _ = 2 ^ 64 := by norm_num
  · rintro ⟨h1, h2⟩
    exact pyHexLen_of_bounds 15 n
      (by calc (16 : Nat) ^ 15 = 2 ^ 60 := by norm_num
            _ ≤ n := h1)
      (by calc n < 2 ^ 64 := h2
            _ = 16 ^ (15 + 1) := by norm_num)

/-! ### Trace-shape lemmas for one exchange -/

theorem send_recv_frame_sentPayloads (bus : BusModel) (f : Message) (rid : Nat) :
    sentPayloads (send_recv_frame bus f rid).2 = [f.data] := by
  cases hb : bus.sendFails <;> cases hr : bus.response f <;>
    simp [send_recv_frame, hb, hr, sentPayloads]

theorem send_recv_frame_opensCloses (bus : BusModel) (f : Message) (rid : Nat) :
    opensCloses (send_recv_frame bus f rid).2 = [Event.busOpen, Event.busClose] := by
  cases hb : bus.sendFails <;> cases hr : bus.response f <;>
    simp [send_recv_frame, hb, hr, opensCloses]

theorem send_recv_frame_head (bus : BusModel) (f : Message) (rid : Nat) :
    (send_recv_frame bus f rid).2.head? = some Event.busOpen := by
  cases hb : bus.sendFails <;> cases hr : bus.response f <;>
    simp [send_recv_frame, hb, hr]

theorem send_recv_frame_getLast (bus : BusModel) (f : Message) (rid : Nat) :
    (send_recv_frame bus f rid).2.getLast? = some Event.busClose := by
  cases hb : bus.sendFails <;> cases hr : bus.response f <;>
    simp [send_recv_frame, hb, hr]

theorem send_recv_frame_echoBus (f : Message) (rid : Nat) :
    (send_recv_frame (echoBus rid) f rid).1 = true := by
  simp [send_recv_frame, echoBus]

theorem sentPayloads_append (t1 t2 : List Event) :
    sentPayloads (t1 ++ t2) = sentPayloads t1 ++ sentPayloads t2 := by
  unfold sentPayloads
  exact List.filterMap_append t1 t2 _

theorem opensCloses_append (t1 t2 : List Event) :
    opensCloses (t1 ++ t2) = opensCloses t1 ++ opensCloses t2 := by
  unfold opensCloses
  exact List.filter_append _ _

/-! ### Lemmas about the chunk loop of send_code -/

theorem code_chunks_length (L : Nat) (bs : List Nat) (i : Nat) :
    (code_chunks L bs i).length = (L - i + 7) / 8 := by
  rw [code_chunks.eq_def]
  split
  · rename_i h
    rw [List.length_cons, code_chunks_length L bs (i + 8)]
    omega
  · rename_i h
    simp only [List.length_nil]
    omega
termination_by L - i
decreasing_by omega

theorem code_chunks_flatten (L : Nat) (bs : List Nat) (i : Nat) (hL : bs.length = L) :
    (code_chunks L bs i).flatten = bs.drop i := by
  rw [code_chunks.eq_def]
  split
  · rename_i h
    rw [List.flatten_cons, code_chunks_flatten L bs (i + 8) hL]
    have h8 : bs.drop (i + 8) = (bs.drop i).drop 8 := by
      rw [List.drop_drop, Nat.add_comm]
    rw [h8, List.take_append_drop]
  · rename_i h
    rw [List.drop_eq_nil_of_le (by omega)]
    rfl
termination_by L - i
decreasing_by omega

theorem code_chunks_map_length (L : Nat) (bs : List Nat) (i : Nat)
    (hL : bs.length = L) (hi : i < L) :
    (code_chunks L bs i).map List.length
      = List.replicate ((L - i + 7) / 8 - 1) 8
          ++ [if (L - i) % 8 = 0 then 8 else (L - i) % 8] := by
  rw [code_chunks.eq_def, dif_pos hi]
  rw [List.map_cons]
  have hchunk : ((bs.drop i).take 8).length = min 8 (L - i) := by
    rw [List.length_take, List.length_drop, hL]
  by_cases hlast : i + 8 < L
  · rw [code_chunks_map_length L bs (i + 8) hL hlast]
    have hm : min 8 (L - i) = 8 := by omega
    have hrep : (L - i + 7) / 8 - 1 = (L - (i + 8) + 7) / 8 - 1 + 1 := by omega
    have hmod : (L - (i + 8)) % 8 = (L - i) % 8 := by omega
    rw [hchunk, hm, hmod, hrep, List.replicate_succ, List.cons_append]
  · have hempty : code_chunks L bs (i + 8) = [] := by
      rw [code_chunks.eq_def, dif_neg (by omega)]
    rw [hempty]
    have hone : (L - i + 7) / 8 - 1 = 0 := by omega
    rw [hchunk, hone, List.replicate_zero, List.map_nil, List.nil_append]
    by_cases h8 : (L - i) % 8 = 0
    · have : min 8 (L - i) = 8 := by omega
      rw [this, if_pos h8]
    · have : min 8 (L - i) = (L - i) % 8 := by omega
      rw [this, if_neg h8]
termination_by L - i
decreasing_by omega

theorem send_code_from_echo (L : Nat) (bs : List Nat) (i k : Nat) :
    (send_code_from (fun _ => echoBus ID_SEND_DATA_ECHO) L bs i k).1 = true ∧
      sentPayloads (send_code_from (fun _ => echoBus ID_SEND_DATA_ECHO) L bs i k).2
        = code_chunks L bs i := by
  rw [send_code_from.eq_def, code_chunks.eq_def]
  split
  · rename_i h
    have ih := send_code_from_echo L bs (i + 8) (k + 1)
    simp only [send_recv_frame_echoBus, if_true, sentPayloads_append,
      send_recv_frame_sentPayloads, List.singleton_append]
    exact ⟨ih.1, by rw [ih.2]⟩
  · exact ⟨rfl, rfl⟩
termination_by L - i
decreasing_by omega

theorem send_code_from_opensCloses (oracle : Nat → BusModel) (L : Nat)
    (bs : List Nat) (i k : Nat) :
    ∃ m, opensCloses (send_code_from oracle L bs i k).2
      = (List.replicate m [Event.busOpen, Event.busClose]).flatten := by
  rw [send_code_from.eq_def]
  split
  · rename_i h
    cases hok : (send_recv_frame (oracle k)
        { arbitration_id := ID_SEND_DATA, data := (bs.drop i).take 8 }
        ID_SEND_DATA_ECHO).1 with
    | true =>
      obtain ⟨m, hm⟩ := send_code_from_opensCloses oracle L bs (i + 8) (k + 1)
      refine ⟨m + 1, ?_⟩
      simp only [hok, if_true]
      rw [opensCloses_append, send_recv_frame_opensCloses, hm,
        List.replicate_succ, List.flatten_cons]
    | false =>
      refine ⟨1, ?_⟩
      simp [hok, send_recv_frame_opensCloses]
  · exact ⟨0, rfl⟩
termination_by L - i
decreasing_by omega

theorem send_code_from_abort (oracle : Nat → BusModel) (L : Nat) (bs : List Nat)
    (j : Nat) :
    ∀ i k, i + j * 8 < L →
      (∀ d, d < j → (send_recv_frame (oracle (k + d))
          { arbitration_id := ID_SEND_DATA, data := (bs.drop (i + d * 8)).take 8 }
          ID_SEND_DATA_ECHO).1 = true) →
      (send_recv_frame (oracle (k + j))
          { arbitration_id := ID_SEND_DATA, data := (bs.drop (i + j * 8)).take 8 }
          ID_SEND_DATA_ECHO).1 = false →
      (send_code_from oracle L bs i k).1 = false ∧
        sentPayloads (send_code_from oracle L bs i k).2
          = (code_chunks L bs i).take (j + 1) := by
  induction j with
  | zero =>
    intro i k hj hok hfail
    have hi : i < L := by omega
    rw [send_code_from.eq_def, dif_pos hi, code_chunks.eq_def, dif_pos hi]
    simp only [Nat.add_zero, Nat.zero_mul] at hfail
    simp only [hfail, Bool.false_eq_true, if_false, List.take_succ_cons, List.take_zero]
    refine ⟨trivial, ?_⟩
    rw [send_recv_frame_sentPayloads]
  | succ j ih =>
    intro i k hj hok hfail
    have hi : i < L := by omega
    rw [send_code_from.eq_def, dif_pos hi, code_chunks.eq_def, dif_pos hi]
    have h0 := hok 0 (by omega)
    simp only [Nat.add_zero, Nat.zero_mul] at h0
    have hok' : ∀ d, d < j → (send_recv_frame (oracle (k + 1 + d))
        { arbitration_id := ID_SEND_DATA, data := (bs.drop (i + 8 + d * 8)).take 8 }
        ID_SEND_DATA_ECHO).1 = true := by
      intro d hd
      have hkd : k + 1 + d = k + (d + 1) := by omega
      have hid : i + 8 + d * 8 = i + (d + 1) * 8 := by ring
      rw [hkd, hid]
      exact hok (d + 1) (by omega)
    have hfail' : (send_recv_frame (oracle (k + 1 + j))
        { arbitration_id := ID_SEND_DATA, data := (bs.drop (i + 8 + j * 8)).take 8 }
        ID_SEND_DATA_ECHO).1 = false := by
      have hkj : k + 1 + j = k + (j + 1) := by omega
      have hij : i + 8 + j * 8 = i + (j + 1) * 8 := by ring
      rw [hkj, hij]
      exact hfail
    obtain ⟨hfst, hpl⟩ := ih (i + 8) (k + 1) (by omega) hok' hfail'
    simp only [h0, if_true]
    refine ⟨hfst, ?_⟩
    rw [sentPayloads_append, send_recv_frame_sentPayloads, hpl,
      List.take_succ_cons, List.singleton_append]

/-! ### Bit lemmas for the address/size field -/

theorem or_high_bit_mask (n : Nat) (h : n < 2 ^ 31) :
    (n ||| 2 ^ 31) &&& (2 ^ 31 - 1) = n := by
  rw [Nat.and_distrib_right, Nat.and_pow_two_sub_one_eq_mod,
    Nat.and_pow_two_sub_one_eq_mod, Nat.mod_eq_of_lt h, Nat.mod_self, Nat.or_zero]

theorem or_high_bit_testBit (n : Nat) : (n ||| 2 ^ 31).testBit 31 = true := by
  rw [Nat.testBit_or, Nat.testBit_two_pow_self, Bool.or_true]

/-! ### Claim theorems -/

/-- C1: `send_recv_frame` returns `true` iff the send succeeded and a
response frame was received whose arbitration ID equals the expected echo
ID and whose payload is byte-for-byte identical to the sent frame's
payload; a send failure, a receive error, no response within the bounded
wait, an ID mismatch or any payload difference (content or length) all
yield `false`. -/
theorem C1_send_recv_frame_true_iff (bus : BusModel) (f : Message) (rid : Nat) :
    (send_recv_frame bus f rid).1 = true ↔
      bus.sendFails = false ∧
        ∃ resp, bus.response f = RecvOutcome.frame resp ∧
          resp.arbitration_id = rid ∧ resp.data = f.data := by
  cases hb : bus.sendFails <;> cases hr : bus.response f <;>
    simp [send_recv_frame, hb, hr]

/-- C2: the claim that `send_password` builds the 8-byte big-endian frame
for every 64-bit password fails on the code: the hex-digit-count assert
rejects the legitimate password 0x00EDFACECAFEBEEF, whose leading byte is
zero, on every bus, even though its 8-byte big-endian encoding exists and
round-trips exactly. -/
theorem C2_send_password_leading_zero_rejected :
    (∀ bus, send_password bus 0x00EDFACECAFEBEEF = none) ∧
      (toBytesBE 8 0x00EDFACECAFEBEEF).length = 8 ∧
      fromBytesBE (toBytesBE 8 0x00EDFACECAFEBEEF) = 0x00EDFACECAFEBEEF := by
  refine ⟨fun bus => ?_, by decide, by decide⟩
  have h14 : pyHexLen 0x00EDFACECAFEBEEF = 14 :=
    pyHexLen_of_bounds 13 _ (by norm_num) (by norm_num)
  unfold send_password
  rw [h14]
  norm_num

/-- C3: run on an image of positive length `L` with `code_length = L`,
`send_code` sends exactly the slices `code_chunks`, which number
`ceil(L / 8)`, are all of size 8 except the last, whose size is
`L mod 8` when that is nonzero and 8 otherwise, and concatenate back to
the original image. -/
theorem C3_send_code_partitions (bs : List Nat) (h : 0 < bs.length) :
    sentPayloads (send_code (fun _ => echoBus ID_SEND_DATA_ECHO) bs.length bs).2
        = code_chunks bs.length bs 0 ∧
      (code_chunks bs.length bs 0).length = (bs.length + 7) / 8 ∧
      (code_chunks bs.length bs 0).map List.length
        = List.replicate ((bs.length + 7) / 8 - 1) 8
            ++ [if bs.length % 8 = 0 then 8 else bs.length % 8] ∧
      (code_chunks bs.length bs 0).flatten = bs := by
  refine ⟨(send_code_from_echo bs.length bs 0 0).2, ?_, ?_, ?_⟩
  · rw [code_chunks_length]
    norm_num
  · have hm := code_chunks_map_length bs.length bs 0 rfl h
    simpa using hm
  · rw [code_chunks_flatten bs.length bs 0 rfl, List.drop_zero]

/-- C4: for any `image_length` below `2 ^ 31`, `send_loading_address`
builds (and sends) a frame whose 8-byte payload is the fixed base address
`[0x40, 0x00, 0x01, 0x00]` followed by the big-endian 4-byte encoding of
`image_length ||| 0x80000000`; the last 4 bytes masked with `0x7FFFFFFF`
decode to `image_length` and bit 31 of the size field is set. -/
theorem C4_send_loading_address_payload (bus : BusModel) (image_length : Nat)
    (h : image_length < 2 ^ 31) :
    ∃ ok tr,
      send_loading_address bus image_length = some (ok, tr) ∧
        sentPayloads tr
          = [LOADING_ADDRESS ++ toBytesBE 4 (image_length ||| 0x80000000)] ∧
        (LOADING_ADDRESS ++ toBytesBE 4 (image_length ||| 0x80000000)).length = 8 ∧
        (LOADING_ADDRESS ++ toBytesBE 4 (image_length ||| 0x80000000)).take 4
          = [0x40, 0x00, 0x01, 0x00] ∧
        fromBytesBE ((LOADING_ADDRESS
            ++ toBytesBE 4 (image_length ||| 0x80000000)).drop 4) &&& 0x7FFFFFFF
          = image_length ∧
        (fromBytesBE ((LOADING_ADDRESS
            ++ toBytesBE 4 (image_length ||| 0x80000000)).drop 4)).testBit 31
          = true := by
  have h31 : (0x80000000 : Nat) = 2 ^ 31 := by norm_num
  have hm32 : image_length ||| 0x80000000 < 2 ^ 32 := by
    rw [h31]
    exact Nat.or_lt_two_pow (by omega) (by norm_num)
  have h2564 : (256 : Nat) ^ 4 = 2 ^ 32 := by norm_num
  have hbytes : to_bytes (image_length ||| 0x80000000) 4
      = some (toBytesBE 4 (image_length ||| 0x80000000)) := by
    rw [to_bytes, if_pos (by omega)]
  have hdrop : (LOADING_ADDRESS ++ toBytesBE 4 (image_length ||| 0x80000000)).drop 4
      = toBytesBE 4 (image_length ||| 0x80000000) := by
    simp [LOADING_ADDRESS]
  have hdec : fromBytesBE (toBytesBE 4 (image_length ||| 0x80000000))
      = image_length ||| 0x80000000 :=
    fromBytesBE_toBytesBE 4 _ (by omega)
  refine ⟨(send_recv_frame bus
      { arbitration_id := ID_SEND_ADDRESS,
        data := LOADING_ADDRESS ++ toBytesBE 4 (image_length ||| 0x80000000) }
      ID_SEND_ADDRESS_ECHO).1,
    (send_recv_frame bus
      { arbitration_id := ID_SEND_ADDRESS,
        data := LOADING_ADDRESS ++ toBytesBE 4 (image_length ||| 0x80000000) }
      ID_SEND_ADDRESS_ECHO).2, ?_, ?_, ?_, ?_, ?_, ?_⟩
  · rw [send_loading_address]
    simp only [hbytes]
  · exact send_recv_frame_sentPayloads bus _ ID_SEND_ADDRESS_ECHO
  · rw [List.length_append, toBytesBE_length]
    rfl
  · simp [LOADING_ADDRESS]
  · rw [hdrop, hdec]
    have hmask : (0x7FFFFFFF : Nat) = 2 ^ 31 - 1 := by norm_num
    rw [hmask, h31]
    exact or_high_bit_mask image_length h
  · rw [hdrop, hdec, h31]
    exact or_high_bit_testBit image_length

/-- C5: the claim that an over-31-bit image length fails with an
invalid-length error does not hold of the code: `send_loading_address`
performs no length validation, and for `image_length = 0x80000000` it
builds and sends a frame whose size field, masked with `0x7FFFFFFF`,
no longer equals the image length. -/
theorem C5_send_loading_address_no_validation :
    send_loading_address (echoBus ID_SEND_ADDRESS_ECHO) 0x80000000
        = some (true,
          [Event.busOpen,
           Event.busSend
             { arbitration_id := ID_SEND_ADDRESS,
               data := [0x40, 0x00, 0x01, 0x00, 0x80, 0x00, 0x00, 0x00] },
           Event.busRecv, Event.busClose]) ∧
      fromBytesBE [0x80, 0x00, 0x00, 0x00] &&& 0x7FFFFFFF ≠ 0x80000000 := by
  refine ⟨by decide, by decide⟩

/-- C6: the first chunk exchange of `send_code` that returns `false`
aborts the transfer: the run returns `false` and the payloads whose send
was attempted are exactly the chunks up to and including the failing one
(each sent once, so chunks already sent are not undone or retried and no
later chunk is ever sent). -/
theorem C6_send_code_aborts (oracle : Nat → BusModel) (L : Nat) (bs : List Nat)
    (j : Nat) (hj : j * 8 < L)
    (hok : ∀ d, d < j → (send_recv_frame (oracle d)
        { arbitration_id := ID_SEND_DATA, data := (bs.drop (d * 8)).take 8 }
        ID_SEND_DATA_ECHO).1 = true)
    (hfail : (send_recv_frame (oracle j)
        { arbitration_id := ID_SEND_DATA, data := (bs.drop (j * 8)).take 8 }
        ID_SEND_DATA_ECHO).1 = false) :
    (send_code oracle L bs).1 = false ∧
      sentPayloads (send_code oracle L bs).2 = (code_chunks L bs 0).take (j + 1) := by
  refine send_code_from_abort oracle L bs j 0 0 (by omega) ?_ ?_
  · intro d hd
    simpa using hok d hd
  · simpa using hfail

/-- C7: every exchange opens its own bus connection first and closes it
last on every exit path, and across a whole `send_code` run the open and
close events strictly alternate in matched pairs, so the connection is
never held across two exchanges. -/
theorem C7_connection_scoped_per_exchange :
    (∀ (bus : BusModel) (f : Message) (rid : Nat),
        opensCloses (send_recv_frame bus f rid).2 = [Event.busOpen, Event.busClose] ∧
        (send_recv_frame bus f rid).2.head? = some Event.busOpen ∧
        (send_recv_frame bus f rid).2.getLast? = some Event.busClose) ∧
      ∀ (oracle : Nat → BusModel) (L : Nat) (bs : List Nat), ∃ m,
        opensCloses (send_code oracle L bs).2
          = (List.replicate m [Event.busOpen, Event.busClose]).flatten :=
  ⟨fun bus f rid => ⟨send_recv_frame_opensCloses bus f rid,
      send_recv_frame_head bus f rid, send_recv_frame_getLast bus f rid⟩,
    fun oracle L bs => send_code_from_opensCloses oracle L bs 0 0⟩

/-- C8: a zero-length image makes the `main` run stop with the
empty-image error before any frame is built or sent: the run's outcome is
`emptyImageError` and its transport trace is empty, so no exchange is
ever performed. -/
theorem C8_empty_image_rejected (pw_bus addr_bus : BusModel)
    (data_oracle : Nat → BusModel) (password_arg : Option Nat)
    (ram_image_bytes : List Nat) (h : ram_image_bytes.length = 0) :
    main_after_load pw_bus addr_bus data_oracle password_arg ram_image_bytes
      = (MainOutcome.emptyImageError, []) := by
  unfold main_after_load
  simp only [h, if_pos]

/-- C9: `send_password` halts on the assert (returning no result and
sending nothing) exactly when the hexadecimal representation of the
password is not 16 digits, and having exactly 16 hexadecimal digits is
equivalent to lying in `[2 ^ 60, 2 ^ 64)` — so every password below
`2 ^ 60`, including legitimate 8-byte passwords with leading zero bytes,
is rejected and only passwords in `[2 ^ 60, 2 ^ 64)` reach the encoding
step. -/
theorem C9_send_password_guard (bus : BusModel) (p : Nat) :
    (send_password bus p = none ↔ pyHexLen p ≠ 16) ∧
      (pyHexLen p = 16 ↔ 2 ^ 60 ≤ p ∧ p < 2 ^ 64) := by
  refine ⟨?_, pyHexLen_eq_16_iff p⟩
  unfold send_password
  by_cases h : pyHexLen p = 16
  · rw [if_pos h]
    have hlt : p < 2 ^ 64 := ((pyHexLen_eq_16_iff p).1 h).2
    have h2564 : (256 : Nat) ^ 8 = 2 ^ 64 := by norm_num
    have hbytes : to_bytes p 8 = some (toBytesBE 8 p) := by
      rw [to_bytes, if_pos (by omega)]
    simp [hbytes, h]
  · rw [if_neg h]
    simp [h]

/-- C10: with `code_length = 0`, `send_code` returns `true` with an
empty trace for every oracle and every byte sequence (no exchange, no
frame); and on an all-echo transport the number of send attempts it
performs is `ceil(code_length / 8)`, for every byte sequence regardless
of its actual length. -/
theorem C10_send_code_count :
    (∀ (oracle : Nat → BusModel) (bs : List Nat), send_code oracle 0 bs = (true, [])) ∧
      ∀ (L : Nat) (bs : List Nat),
        (send_code (fun _ => echoBus ID_SEND_DATA_ECHO) L bs).1 = true ∧
          (sentPayloads (send_code (fun _ => echoBus ID_SEND_DATA_ECHO) L bs).2).length
            = (L + 7) / 8 := by
  constructor
  · intro oracle bs
    unfold send_code
    rw [send_code_from.eq_def, dif_neg (by omega)]
  · intro L bs
    obtain ⟨h1, h2⟩ := send_code_from_echo L bs 0 0
    refine ⟨h1, ?_⟩
    unfold send_code
    rw [h2, code_chunks_length]
    norm_num

/-! ### Concrete witnesses -/

/-- Witness for C3: the chunking properties hold at a concrete 20-byte
image. -/
theorem C3_witness :
    0 < (List.range 20).length ∧
      (sentPayloads (send_code (fun _ => echoBus ID_SEND_DATA_ECHO)
            (List.range 20).length (List.range 20)).2
          = code_chunks (List.range 20).length (List.range 20) 0 ∧
        (code_chunks (List.range 20).length (List.range 20) 0).length
          = ((List.range 20).length + 7) / 8 ∧
        (code_chunks (List.range 20).length (List.range 20) 0).map List.length
          = List.replicate (((List.range 20).length + 7) / 8 - 1) 8
              ++ [if (List.range 20).length % 8 = 0 then 8
                  else (List.range 20).length % 8] ∧
        (code_chunks (List.range 20).length (List.range 20) 0).flatten
          = List.range 20) :=
  ⟨by decide, C3_send_code_partitions (List.range 20) (by decide)⟩

/-- Witness for C4: the address payload properties hold at the concrete
image length 10. -/
theorem C4_witness :
    (10 : Nat) < 2 ^ 31 ∧
      ∃ ok tr,
        send_loading_address (echoBus ID_SEND_ADDRESS_ECHO) 10 = some (ok, tr) ∧
          sentPayloads tr = [LOADING_ADDRESS ++ toBytesBE 4 (10 ||| 0x80000000)] ∧
          (LOADING_ADDRESS ++ toBytesBE 4 (10 ||| 0x80000000)).length = 8 ∧
          (LOADING_ADDRESS ++ toBytesBE 4 (10 ||| 0x80000000)).take 4
            = [0x40, 0x00, 0x01, 0x00] ∧
          fromBytesBE ((LOADING_ADDRESS
              ++ toBytesBE 4 (10 ||| 0x80000000)).drop 4) &&& 0x7FFFFFFF = 10 ∧
          (fromBytesBE ((LOADING_ADDRESS
              ++ toBytesBE 4 (10 ||| 0x80000000)).drop 4)).testBit 31 = true :=
  ⟨by decide, C4_send_loading_address_payload (echoBus ID_SEND_ADDRESS_ECHO) 10 (by decide)⟩

/-- Witness for C6: on a 20-byte image whose second data exchange gets no
response, the transfer fails and only the first two chunks are ever
sent. -/
theorem C6_witness :
    (1 * 8 < 20 ∧
      (∀ d, d < 1 → (send_recv_frame
          ((fun k => if k = 1 then silentBus else echoBus ID_SEND_DATA_ECHO) d)
          { arbitration_id := ID_SEND_DATA,
            data := ((List.range 20).drop (d * 8)).take 8 }
          ID_SEND_DATA_ECHO).1 = true) ∧
      (send_recv_frame
          ((fun k => if k = 1 then silentBus else echoBus ID_SEND_DATA_ECHO) 1)
          { arbitration_id := ID_SEND_DATA,
            data := ((List.range 20).drop (1 * 8)).take 8 }
          ID_SEND_DATA_ECHO).1 = false) ∧
      ((send_code (fun k => if k = 1 then silentBus else echoBus ID_SEND_DATA_ECHO)
          20 (List.range 20)).1 = false ∧
        sentPayloads (send_code
            (fun k => if k = 1 then silentBus else echoBus ID_SEND_DATA_ECHO)
            20 (List.range 20)).2
          = (code_chunks 20 (List.range 20) 0).take (1 + 1)) :=
  ⟨⟨by decide, by decide, by decide⟩,
    C6_send_code_aborts (fun k => if k = 1 then silentBus else echoBus ID_SEND_DATA_ECHO)
      20 (List.range 20) 1 (by decide) (by decide) (by decide)⟩

/-- Witness for C8: the concrete empty image is rejected with the
empty-image outcome and an empty transport trace. -/
theorem C8_witness :
    ([] : List Nat).length = 0 ∧
      main_after_load (echoBus ID_SEND_PASSWORD_ECHO) (echoBus ID_SEND_ADDRESS_ECHO)
          (fun _ => echoBus ID_SEND_DATA_ECHO) none []
        = (MainOutcome.emptyImageError, []) :=
  ⟨rfl, C8_empty_image_rejected (echoBus ID_SEND_PASSWORD_ECHO)
      (echoBus ID_SEND_ADDRESS_ECHO) (fun _ => echoBus ID_SEND_DATA_ECHO) none [] rfl⟩

end BamLoader
